import Mathlib

/-!
Verification of the calendar-extraction core of the `ortodoxa-gudstjanster`
repository (src/fetch_calendar.py, src/scrape_calendar.py,
src/print_calendar.py).

The extraction operates on an HTML document parsed by BeautifulSoup.  We
embed the parsed document as a tree of nodes (`Node`) and transcribe the
extraction logic of `fetch_calendar` over that tree.  The BeautifulSoup
operations used by the source (`find`, `find_all`, `get_text(strip=True)`,
`decode_contents`) are modelled as recursive tree functions, and the two
fixed regular expressions of the source are modelled as explicit
leftmost-match scanners with the exact backtracking behaviour of Python's
`re.search` on those patterns.
-/

/-- A parsed HTML node: either a text node or an element with a tag name,
a list of CSS classes (the `class` attribute, as BeautifulSoup exposes it),
and child nodes in document order. -/
inductive Node where
  | text : String → Node
  | elem : String → List String → List Node → Node

/-- Python `str.isspace`-style character class used by `\s` in the source
regexes and by `str.strip`.  Python's `\s` additionally matches some
non-ASCII Unicode spaces; the model covers the ASCII range, which is what
appears in the page format the source parses. -/
def pyIsSpace (c : Char) : Bool :=
  c = ' ' || c = '\t' || c = '\n' || c = '\r' || c = '\x0b' || c = '\x0c'

/-- Character class of `\d` in the source regexes.  Python's `\d` also
matches non-ASCII Unicode decimal digits; the model covers the ASCII
digits, which is what the date format uses. -/
def pyIsDigit (c : Char) : Bool :=
  c.isDigit

/-- Character class of `\w` in the source regexes.  Python's `\w` matches
Unicode word characters; the model treats every non-ASCII character as a
word character, which agrees with Python on the letters occurring in the
source page's weekday names (e.g. `ö`, `å`). -/
def pyIsWordChar (c : Char) : Bool :=
  c.isAlphanum || c = '_' || c.val ≥ 0x80

/-- Python `str.strip()`: remove leading and trailing whitespace. -/
def pyStrip (s : String) : String :=
  (((s.toList.dropWhile pyIsSpace).reverse.dropWhile pyIsSpace).reverse).asString

mutual
/-- All descendants of a node in document (pre-)order, the node itself
excluded — the search space of BeautifulSoup's `find`/`find_all` on a tag. -/
def nodeDescendants : Node → List Node
  | .text _ => []
  | .elem _ _ cs => listDescendants cs

/-- Descendants of a forest: each root followed by its own descendants. -/
def listDescendants : List Node → List Node
  | [] => []
  | c :: cs => c :: (nodeDescendants c ++ listDescendants cs)
end

/-- Does a node match BeautifulSoup's `find(tag, class_=cls)` criteria:
it is an element with the given tag name and, when a class is required,
that class is among the element's classes. -/
def nodeMatches (tag : String) (cls : Option String) : Node → Bool
  | .text _ => false
  | .elem t ks _ =>
    t = tag && (match cls with
                | none => true
                | some k => ks.contains k)

/-- BeautifulSoup `node.find(tag, class_=cls)`: the first matching
descendant in document order, or `None`. -/
def findDesc (tag : String) (cls : Option String) (n : Node) : Option Node :=
  (nodeDescendants n).find? (nodeMatches tag cls)

/-- BeautifulSoup `node.find_all(tag, class_=cls)`: all matching
descendants in document order. -/
def findAllDesc (tag : String) (cls : Option String) (n : Node) : List Node :=
  (nodeDescendants n).filter (nodeMatches tag cls)

/-- The text of a text node, if any. -/
def textOf : Node → Option String
  | .text s => some s
  | .elem _ _ _ => none

/-- BeautifulSoup `node.get_text(strip=True)`: concatenate the stripped
text of every descendant text node, in document order (the default
separator is the empty string, so strings stripping to empty contribute
nothing either way). -/
def getTextStrip (n : Node) : String :=
  String.join (((nodeDescendants n).filterMap textOf).map pyStrip)

/-- HTML-escape one character of text content, as BeautifulSoup's default
"minimal" output formatter does when re-serializing a tree. -/
def escapeChar (c : Char) : String :=
  if c = '&' then "&amp;"
  else if c = '<' then "&lt;"
  else if c = '>' then "&gt;"
  else String.singleton c

/-- HTML-escape text content. -/
def escapeText (s : String) : String :=
  String.join (s.toList.map escapeChar)

/-- Serialize a `class` attribute the way BeautifulSoup writes it back. -/
def classAttr (ks : List String) : String :=
  match ks with
  | [] => ""
  | _ => " class=\x22" ++ String.intercalate " " ks ++ "\x22"

mutual
/-- Serialize one node back to markup, as BeautifulSoup renders it. -/
def serializeNode : Node → String
  | .text s => escapeText s
  | .elem t ks cs => "<" ++ t ++ classAttr ks ++ ">" ++ serializeList cs ++ "</" ++ t ++ ">"

/-- Serialize a forest of nodes. -/
def serializeList : List Node → String
  | [] => ""
  | c :: cs => serializeNode c ++ serializeList cs
end

/-- BeautifulSoup `node.decode_contents()`: the inner markup of an
element — its children serialized and concatenated. -/
def decodeContents : Node → String
  | .text _ => ""
  | .elem _ _ cs => serializeList cs

/-- Split off exactly `n` characters satisfying `p`, returning them and
the rest; fails if fewer than `n` such characters lead the list.  Models a
`{n}`-counted character class in the source regex. -/
def splitCount (p : Char → Bool) : Nat → List Char → Option (List Char × List Char)
  | 0, cs => some ([], cs)
  | _ + 1, [] => none
  | n + 1, c :: cs =>
    if p c then (splitCount p n cs).map (fun pr => (c :: pr.1, pr.2)) else none

/-- Expect a literal character; models a literal in the source regex. -/
def expectChar (a : Char) : List Char → Option (List Char)
  | [] => none
  | c :: cs => if c = a then some cs else none

/-- Expect a literal string of characters. -/
def expectLit : List Char → List Char → Option (List Char)
  | [], cs => some cs
  | _ :: _, [] => none
  | a :: as, c :: cs => if c = a then expectLit as cs else none

/-- Attempt to match the date regex
`(\d{4}-\d{2}-\d{2})\s*\|\s*(\w+)` of `fetch_calendar` anchored at the
start of the character list, returning the two capture groups (the date
and the weekday word).  The `\s*` pieces are deterministic here: a
whitespace character can never satisfy the following literal `|`, so
greedy matching with backtracking degenerates to "skip all whitespace";
`\w+` has nothing after it, so it captures the maximal word-character
run. -/
def matchDateAt (cs : List Char) : Option (String × String) := do
  let (y, r1) ← splitCount pyIsDigit 4 cs
  let r2 ← expectChar '-' r1
  let (mo, r3) ← splitCount pyIsDigit 2 r2
  let r4 ← expectChar '-' r3
  let (d, r5) ← splitCount pyIsDigit 2 r4
  let r6 := r5.dropWhile pyIsSpace
  let r7 ← expectChar '|' r6
  let r8 := r7.dropWhile pyIsSpace
  let w := r8.takeWhile pyIsWordChar
  if w.isEmpty then none
  else some ((y ++ '-' :: mo ++ '-' :: d).asString, w.asString)

/-- `re.search` of the date regex: try each start position left to right
and return the captures of the leftmost match. -/
def dateSearch : List Char → Option (String × String)
  | [] => none
  | c :: cs =>
    match matchDateAt (c :: cs) with
    | some r => some r
    | none => dateSearch cs

/-- The tail `\s*([^<]+)` of the label regexes, with Python's greedy
backtracking: `\s*` prefers to consume a whitespace character, and only
if the rest of the pattern then fails does that character instead start
the `([^<]+)` capture (whitespace is itself a non-`<` character). -/
def wsStarThenCap : List Char → Option (List Char)
  | [] => none
  | c :: cs =>
    if pyIsSpace c then
      match wsStarThenCap cs with
      | some g => some g
      | none =>
        if c = '<' then none else some ((c :: cs).takeWhile (fun x => x ≠ '<'))
    else
      if c = '<' then none else some ((c :: cs).takeWhile (fun x => x ≠ '<'))

/-- Attempt to match `<strong>\s*LABEL\s*</strong>\s*([^<]+)` anchored at
the start of the list, returning the raw capture group.  The inner `\s*`
pieces are deterministic because a whitespace character can never satisfy
the following literal. -/
def matchLabelAt (label : List Char) (cs : List Char) : Option (List Char) := do
  let r1 ← expectLit "<strong>".toList cs
  let r2 := r1.dropWhile pyIsSpace
  let r3 ← expectLit label r2
  let r4 := r3.dropWhile pyIsSpace
  let r5 ← expectLit "</strong>".toList r4
  wsStarThenCap r5

/-- `re.search` of a label regex: leftmost match, scanning start
positions left to right. -/
def labelSearch (label : List Char) : List Char → Option (List Char)
  | [] => none
  | c :: cs =>
    match matchLabelAt label (c :: cs) with
    | some g => some g
    | none => labelSearch label cs

/-- Python `'\n'.join(notes)`. -/
def joinNl : List String → String
  | [] => ""
  | [s] => s
  | s :: rest => s ++ "\n" ++ joinNl rest

/-- The `ChurchService` dataclass, identical in `fetch_calendar.py` and
`scrape_calendar.py`. -/
structure ChurchService where
  date : String
  day_of_week : String
  service_name : String
  location : Option String
  time : Option String
  occasion : Option String
  notes : Option String
deriving DecidableEq

/-- Lines 61–62 of `src/fetch_calendar.py`:
`service_name = h3.get_text(strip=True) if h3 else "Unknown"` where
`h3 = content_div.find('h3')`. -/
def serviceNameOf (contentDiv : Node) : String :=
  match findDesc "h3" none contentDiv with
  | some h3 => getTextStrip h3
  | none => "Unknown"

/-- Lines 77–79: the `Plats:` label regex over
`details_div.decode_contents()`, its capture stripped. -/
def locationOf (detailsDiv : Node) : Option String :=
  (labelSearch "Plats:".toList (decodeContents detailsDiv).toList).map
    (fun (g : List Char) => pyStrip g.asString)

/-- Lines 82–84: the `Tid:` label regex over
`details_div.decode_contents()`, its capture stripped. -/
def timeOf (detailsDiv : Node) : Option String :=
  (labelSearch "Tid:".toList (decodeContents detailsDiv).toList).map
    (fun (g : List Char) => pyStrip g.asString)

/-- Lines 87–91: `occasion` is the stripped text of the first `strong`
descendant of the details block, but only when that text is non-empty and
not one of the reserved labels `Plats:`, `Tid:`. -/
def occasionOf (detailsDiv : Node) : Option String :=
  match findDesc "strong" none detailsDiv with
  | none => none
  | some st =>
    let strongText := getTextStrip st
    if strongText ≠ "" && strongText ≠ "Plats:" && strongText ≠ "Tid:" then
      some strongText
    else none

/-- Lines 94–97: the stripped texts of all `p` descendants of the details
block, the empty ones dropped. -/
def notesListOf (detailsDiv : Node) : List String :=
  ((findAllDesc "p" none detailsDiv).map getTextStrip).filter (fun t => t ≠ "")

/-- The loop body of `fetch_calendar` in `src/fetch_calendar.py`
(lines 41–107): process one `calendar-item` block.  `continue` on a
missing meta block, an unmatched date pattern, or a missing content
block becomes `none`; otherwise exactly one record is produced. -/
def processItem (item : Node) : Option ChurchService :=
  match findDesc "div" (some "meta") item with
  | none => none
  | some meta =>
    match dateSearch (getTextStrip meta).toList with
    | none => none
    | some (date, day_of_week) =>
      match findDesc "div" (some "calendar-item-content") item with
      | none => none
      | some contentDiv =>
        let service_name := serviceNameOf contentDiv
        match findDesc "div" none contentDiv with
        | none =>
          some { date, day_of_week, service_name,
                 location := none, time := none, occasion := none, notes := none }
        | some detailsDiv =>
          let notesList := notesListOf detailsDiv
          some { date, day_of_week, service_name,
                 location := locationOf detailsDiv, time := timeOf detailsDiv,
                 occasion := occasionOf detailsDiv,
                 notes := if notesList.isEmpty then none else some (joinNl notesList) }

/-- The `calendar-item` blocks `fetch_calendar` iterates over: all
`div.calendar-item` descendants of the first `section.calendar`, or
nothing when that section is absent. -/
def calendarItems (doc : Node) : List Node :=
  match findDesc "section" (some "calendar") doc with
  | none => []
  | some cal => findAllDesc "div" (some "calendar-item") cal

/-- `fetch_calendar` of `src/fetch_calendar.py` (after the HTTP fetch and
parse, which are external): locate the calendar section, iterate the
calendar items, and collect the record each well-formed item yields. -/
def fetch_calendar (doc : Node) : List ChurchService :=
  match findDesc "section" (some "calendar") doc with
  | none => []
  | some cal => (findAllDesc "div" (some "calendar-item") cal).filterMap processItem

namespace ScrapeCalendar

/-- The loop body of `fetch_calendar` in `src/scrape_calendar.py`
(lines 40–106), transcribed separately from that file: the second script
carries its own copy of the extraction logic. -/
def processItem (item : Node) : Option ChurchService :=
  match findDesc "div" (some "meta") item with
  | none => none
  | some meta =>
    match dateSearch (getTextStrip meta).toList with
    | none => none
    | some (date, day_of_week) =>
      match findDesc "div" (some "calendar-item-content") item with
      | none => none
      | some contentDiv =>
        let service_name :=
          match findDesc "h3" none contentDiv with
          | some h3 => getTextStrip h3
          | none => "Unknown"
        match findDesc "div" none contentDiv with
        | none =>
          some { date, day_of_week, service_name,
                 location := none, time := none, occasion := none, notes := none }
        | some detailsDiv =>
          let location := (labelSearch "Plats:".toList (decodeContents detailsDiv).toList).map
            (fun (g : List Char) => pyStrip g.asString)
          let time := (labelSearch "Tid:".toList (decodeContents detailsDiv).toList).map
            (fun (g : List Char) => pyStrip g.asString)
          let occasion :=
            match findDesc "strong" none detailsDiv with
            | none => none
            | some st =>
              let strongText := getTextStrip st
              if strongText ≠ "" && strongText ≠ "Plats:" && strongText ≠ "Tid:" then
                some strongText
              else none
          let notesList := ((findAllDesc "p" none detailsDiv).map getTextStrip).filter (fun t => t ≠ "")
          some { date, day_of_week, service_name, location, time, occasion,
                 notes := if notesList.isEmpty then none else some (joinNl notesList) }

/-- `fetch_calendar` of `src/scrape_calendar.py` (lines 23–108), the
near-identical duplicate of the one in `src/fetch_calendar.py`. -/
def fetch_calendar (doc : Node) : List ChurchService :=
  match findDesc "section" (some "calendar") doc with
  | none => []
  | some cal => (findAllDesc "div" (some "calendar-item") cal).filterMap processItem

end ScrapeCalendar

/-! ### JSON serialization model

`main` in `src/fetch_calendar.py` converts each record to a dict with
`asdict` (fields in declaration order) and writes the list with
`json.dump`; `main` in `src/print_calendar.py` reads it back with
`json.load` and accesses the fields by key.  We model the JSON data that
crosses this boundary as an explicit value type; `json.dump`/`json.load`
(the stdlib's text encoding and decoding of such a value) is external to
the repository and treated as the identity on the value. -/

/-- A JSON value, as produced by `asdict`/`json.dump` and consumed by
`json.load`. -/
inductive JValue where
  | null
  | str : String → JValue
  | arr : List JValue → JValue
  | obj : List (String × JValue) → JValue

/-- An optional string as JSON: Python `None` becomes JSON `null`. -/
def jOptStr : Option String → JValue
  | none => .null
  | some s => .str s

/-- `asdict(service)`: the record as a JSON object with keys in dataclass
declaration order, unset optional fields as `null`. -/
def serviceToJson (r : ChurchService) : JValue :=
  .obj [("date", .str r.date),
        ("day_of_week", .str r.day_of_week),
        ("service_name", .str r.service_name),
        ("location", jOptStr r.location),
        ("time", jOptStr r.time),
        ("occasion", jOptStr r.occasion),
        ("notes", jOptStr r.notes)]

/-- `[asdict(service) for service in services]` followed by `json.dump`:
the serialized form of a record sequence is a JSON array in the same
order. -/
def servicesToJson (rs : List ChurchService) : JValue :=
  .arr (rs.map serviceToJson)

/-- Key lookup in a JSON object, as `service['date']` etc. in
`src/print_calendar.py` reads the loaded dicts. -/
def jLookup (k : String) (fs : List (String × JValue)) : Option JValue :=
  (fs.find? (fun f => f.1 = k)).map (fun f => f.2)

/-- Read a JSON value back as a required string field. -/
def jAsStr : JValue → Option String
  | .str s => some s
  | _ => none

/-- Read a JSON value back as an optional string field (`null` means
unset). -/
def jAsOptStr : JValue → Option (Option String)
  | .null => some none
  | .str s => some (some s)
  | _ => none

/-- Re-read one serialized record from its JSON object. -/
def serviceOfJson : JValue → Option ChurchService
  | .obj fs => do
    let date ← jLookup "date" fs >>= jAsStr
    let day_of_week ← jLookup "day_of_week" fs >>= jAsStr
    let service_name ← jLookup "service_name" fs >>= jAsStr
    let location ← jLookup "location" fs >>= jAsOptStr
    let time ← jLookup "time" fs >>= jAsOptStr
    let occasion ← jLookup "occasion" fs >>= jAsOptStr
    let notes ← jLookup "notes" fs >>= jAsOptStr
    some { date, day_of_week, service_name, location, time, occasion, notes }
  | _ => none

/-- Re-read a list of serialized records, in array order. -/
def servicesOfJsonList : List JValue → Option (List ChurchService)
  | [] => some []
  | x :: xs => do
    let r ← serviceOfJson x
    let rs ← servicesOfJsonList xs
    some (r :: rs)

/-- Re-read a serialized record sequence from the JSON array. -/
def servicesOfJson : JValue → Option (List ChurchService)
  | .arr xs => servicesOfJsonList xs
  | _ => none

/-- A `calendar-item` block is well-formed when it has a meta sub-block
whose flattened text matches the date pattern, and a content sub-block:
exactly the conditions under which the loop body emits a record. -/
def wellFormed (item : Node) : Bool :=
  match findDesc "div" (some "meta") item with
  | none => false
  | some m =>
    (dateSearch (getTextStrip m).toList).isSome &&
    (findDesc "div" (some "calendar-item-content") item).isSome

/-! ### Structural lemmas about the extraction loop -/

theorem fetch_eq_filterMap (doc : Node) :
    fetch_calendar doc = (calendarItems doc).filterMap processItem := by
  unfold fetch_calendar calendarItems
  cases findDesc "section" (some "calendar") doc <;> simp

theorem processItem_none_of_no_meta (item : Node)
    (h : findDesc "div" (some "meta") item = none) :
    processItem item = none := by
  unfold processItem
  simp only [h]

theorem processItem_none_of_no_date (item m : Node)
    (hm : findDesc "div" (some "meta") item = some m)
    (hd : dateSearch (getTextStrip m).toList = none) :
    processItem item = none := by
  unfold processItem
  simp only [hm, hd]

theorem processItem_none_of_no_content (item : Node)
    (hc : findDesc "div" (some "calendar-item-content") item = none) :
    processItem item = none := by
  unfold processItem
  cases hm : findDesc "div" (some "meta") item with
  | none => rfl
  | some m =>
    cases hd : dateSearch (getTextStrip m).toList with
    | none => simp only [hd]
    | some p => cases p; simp only [hd, hc]

theorem processItem_some_shape (item m cd : Node) (d w : String)
    (hm : findDesc "div" (some "meta") item = some m)
    (hd : dateSearch (getTextStrip m).toList = some (d, w))
    (hc : findDesc "div" (some "calendar-item-content") item = some cd) :
    processItem item = some {
      date := d, day_of_week := w, service_name := serviceNameOf cd,
      location := match findDesc "div" none cd with
                  | none => none
                  | some dd => locationOf dd,
      time := match findDesc "div" none cd with
              | none => none
              | some dd => timeOf dd,
      occasion := match findDesc "div" none cd with
                  | none => none
                  | some dd => occasionOf dd,
      notes := match findDesc "div" none cd with
               | none => none
               | some dd =>
                 if (notesListOf dd).isEmpty then none
                 else some (joinNl (notesListOf dd)) } := by
  unfold processItem
  simp only [hm, hd, hc, serviceNameOf]
  cases findDesc "div" none cd with
  | none => rfl
  | some dd => rfl

theorem processItem_some_inv (item : Node) (r : ChurchService)
    (h : processItem item = some r) :
    ∃ m d w cd, findDesc "div" (some "meta") item = some m ∧
      dateSearch (getTextStrip m).toList = some (d, w) ∧
      findDesc "div" (some "calendar-item-content") item = some cd := by
  unfold processItem at h
  cases hm : findDesc "div" (some "meta") item with
  | none => rw [hm] at h; exact absurd h (by simp)
  | some m =>
    rw [hm] at h
    cases hd : dateSearch (getTextStrip m).toList with
    | none => simp only [hd] at h; exact absurd h (by simp)
    | some p =>
      obtain ⟨d, w⟩ := p
      simp only [hd] at h
      cases hc : findDesc "div" (some "calendar-item-content") item with
      | none => simp only [hc] at h; exact absurd h (by simp)
      | some cd => exact ⟨m, d, w, cd, rfl, hd, rfl⟩

theorem processItem_fields (item : Node) (r : ChurchService) (cd : Node)
    (h : processItem item = some r)
    (hc : findDesc "div" (some "calendar-item-content") item = some cd) :
    r.service_name = serviceNameOf cd ∧
    r.occasion = (match findDesc "div" none cd with
                  | none => none
                  | some dd => occasionOf dd) ∧
    r.notes = (match findDesc "div" none cd with
               | none => none
               | some dd =>
                 if (notesListOf dd).isEmpty then none
                 else some (joinNl (notesListOf dd))) := by
  obtain ⟨m, d, w, cd', hm, hd, hc'⟩ := processItem_some_inv item r h
  have hcd : cd' = cd := by rw [hc] at hc'; exact (Option.some.inj hc').symm
  subst hcd
  rw [processItem_some_shape item m cd' d w hm hd hc'] at h
  cases Option.some.inj h
  exact ⟨rfl, rfl, rfl⟩

theorem occasionOf_none_of_reserved (dd st : Node)
    (hst : findDesc "strong" none dd = some st)
    (ht : getTextStrip st = "Plats:" ∨ getTextStrip st = "Tid:") :
    occasionOf dd = none := by
  unfold occasionOf
  simp only [hst]
  rcases ht with ht | ht <;> simp only [ht] <;> rfl

theorem occasionOf_some_inv (dd : Node) (t : String)
    (h : occasionOf dd = some t) :
    ∃ st, findDesc "strong" none dd = some st ∧ getTextStrip st = t ∧
      t ≠ "" ∧ t ≠ "Plats:" ∧ t ≠ "Tid:" := by
  unfold occasionOf at h
  cases hst : findDesc "strong" none dd with
  | none => rw [hst] at h; exact absurd h (by simp)
  | some st =>
    simp only [hst] at h
    by_cases hcond :
        (getTextStrip st ≠ "" && getTextStrip st ≠ "Plats:" && getTextStrip st ≠ "Tid:") = true
    · rw [if_pos hcond] at h
      simp only [Bool.and_eq_true, decide_eq_true_eq, ne_eq] at hcond
      obtain ⟨⟨h1, h2⟩, h3⟩ := hcond
      have ht := Option.some.inj h
      exact ⟨st, rfl, ht, ht ▸ h1, ht ▸ h2, ht ▸ h3⟩
    · rw [if_neg hcond] at h
      exact absurd h (by simp)

theorem joinNl_ne_empty (l : List String) (hne : l ≠ [])
    (hall : ∀ s ∈ l, s ≠ "") : joinNl l ≠ "" := by
  match l with
  | [s] => simpa using hall s (by simp)
  | s :: b :: rest =>
    intro hcontra
    have hlen := congrArg String.length hcontra
    simp only [joinNl, String.length_append] at hlen
    have hnl : String.length "\n" = 1 := rfl
    have hz : String.length "" = 0 := rfl
    omega

theorem notesListOf_mem_ne_empty (dd : Node) (s : String)
    (hs : s ∈ notesListOf dd) : s ≠ "" := by
  unfold notesListOf at hs
  have := List.mem_filter.mp hs
  simpa using this.2

theorem processItem_isSome_of_wellFormed (item : Node)
    (h : wellFormed item = true) : (processItem item).isSome := by
  unfold wellFormed at h
  cases hm : findDesc "div" (some "meta") item with
  | none => rw [hm] at h; exact absurd h (by simp)
  | some m =>
    rw [hm] at h
    simp only [Bool.and_eq_true, Option.isSome_iff_exists] at h
    obtain ⟨⟨p, hd⟩, ⟨cd, hc⟩⟩ := h
    obtain ⟨d, w⟩ := p
    rw [processItem_some_shape item m cd d w hm hd hc]
    rfl

theorem filterMap_processItem_forall₂ (l : List Node)
    (h : ∀ x ∈ l, (processItem x).isSome) :
    List.Forall₂ (fun it r => processItem it = some r) l (l.filterMap processItem) := by
  induction l with
  | nil => simp
  | cons x xs ih =>
    obtain ⟨r, hr⟩ := Option.isSome_iff_exists.mp (h x (by simp))
    rw [List.filterMap_cons, hr]
    exact List.Forall₂.cons hr (ih fun y hy => h y (by simp [hy]))

/-! ### Concrete documents used by the claims -/

def c1doc : Node :=
  .elem "html" [] [
    .elem "body" [] [
      .elem "section" ["calendar"] [
        .elem "div" ["calendar-item"] [
          .elem "div" ["meta"] [.text "2026-02-20 | Fredag"],
          .elem "div" ["calendar-item-content"] [
            .elem "h3" [] [.text "Aftonsång"],
            .elem "div" [] [
              .elem "strong" [] [.text "Tid:"],
              .text "18:00"
            ]
          ]
        ]
      ]
    ]
  ]

/-- Claim C1: the spec's end-to-end example — one entry with meta text
`2026-02-20 | Fredag`, heading `Aftonsång`, and a detail block holding
only the bold `Tid:` label followed by the inline text `18:00` yields
exactly one record with that date, weekday, service name and time, the
other optional fields unset. -/
theorem C1_end_to_end :
    fetch_calendar c1doc =
      [{ date := "2026-02-20", day_of_week := "Fredag",
         service_name := "Aftonsång", location := none,
         time := some "18:00", occasion := none, notes := none }] := rfl

/-! ### C2 -/

/-- Claim C2: the `occasion` field is determined only by the first bold
token of the detail block in document order — if that token's text is the
reserved `Plats:` or `Tid:`, `occasion` is unset no matter what bold text
follows, and whenever `occasion` is set its value is exactly the first
bold token's text and that text is neither reserved label. -/
theorem C2_occasion_first_strong (item : Node) (r : ChurchService)
    (h : processItem item = some r) :
    (∀ cd dd st,
       findDesc "div" (some "calendar-item-content") item = some cd →
       findDesc "div" none cd = some dd →
       findDesc "strong" none dd = some st →
       (getTextStrip st = "Plats:" ∨ getTextStrip st = "Tid:") →
       r.occasion = none) ∧
    (∀ t, r.occasion = some t →
       ∃ cd dd st,
         findDesc "div" (some "calendar-item-content") item = some cd ∧
         findDesc "div" none cd = some dd ∧
         findDesc "strong" none dd = some st ∧
         getTextStrip st = t ∧ t ≠ "Plats:" ∧ t ≠ "Tid:") := by
  constructor
  · intro cd dd st hc hdd hst hres
    have hf := (processItem_fields item r cd h hc).2.1
    rw [hdd] at hf
    rw [hf]
    exact occasionOf_none_of_reserved dd st hst hres
  · intro t ht
    obtain ⟨m, d, w, cd, hm, hd, hc⟩ := processItem_some_inv item r h
    have hf := (processItem_fields item r cd h hc).2.1
    rw [ht] at hf
    cases hdd : findDesc "div" none cd with
    | none => rw [hdd] at hf; exact absurd hf (by simp)
    | some dd =>
      rw [hdd] at hf
      obtain ⟨st, hst, htt, _, hp, hti⟩ := occasionOf_some_inv dd t hf.symm
      exact ⟨cd, dd, st, hc, hdd, hst, htt, hp, hti⟩

def c2wSt : Node := .elem "strong" [] [.text "Plats:"]

def c2wDd : Node :=
  .elem "div" [] [c2wSt, .text " Hemma", .elem "strong" [] [.text "Påskfest"]]

def c2wCd : Node :=
  .elem "div" ["calendar-item-content"] [.elem "h3" [] [.text "Liturgi"], c2wDd]

def c2wItem : Node :=
  .elem "div" ["calendar-item"]
    [.elem "div" ["meta"] [.text "2026-04-12 | Tisdag"], c2wCd]

def c2wRec : ChurchService :=
  ⟨"2026-04-12", "Tisdag", "Liturgi", some "Hemma", none, none, none⟩

/-- Witness for C2: an entry whose first bold token is `Plats:` and which
carries a later non-reserved bold token `Påskfest` still has `occasion`
unset. -/
theorem C2_witness : c2wRec.occasion = none :=
  (C2_occasion_first_strong c2wItem c2wRec rfl).1 c2wCd c2wDd c2wSt rfl rfl rfl
    (Or.inl rfl)

/-! ### C3 -/

def c3doc : Node :=
  .elem "html" [] [
    .elem "section" ["calendar"] [
      .elem "div" ["calendar-item"] [
        .elem "div" ["meta"] [.text "2026-02-20 | Fredag"],
        .elem "div" ["calendar-item-content"] [
          .elem "h3" [] []
        ]
      ]
    ]
  ]

/-- Counterexample to claim C3: an entry whose content block carries an
empty `<h3></h3>` heading is emitted with `service_name = ""` — the
sentinel only covers a missing heading, not an empty one, so extraction
does emit a record whose service name is the empty string. -/
theorem C3_counterexample :
    fetch_calendar c3doc =
      [{ date := "2026-02-20", day_of_week := "Fredag", service_name := "",
         location := none, time := none, occasion := none, notes := none }] ∧
    (fetch_calendar c3doc).map ChurchService.service_name = [""] :=
  ⟨rfl, rfl⟩

/-- Claim C3 (amended): when the content block has no heading element the
emitted record's `service_name` is the sentinel `"Unknown"`; when a
heading is present, `service_name` is that heading's stripped text, which
is empty exactly when the heading contains only whitespace — so
`service_name` can be the empty string. -/
theorem C3_amended_service_name (item : Node) (r : ChurchService) (cd : Node)
    (h : processItem item = some r)
    (hc : findDesc "div" (some "calendar-item-content") item = some cd) :
    (findDesc "h3" none cd = none → r.service_name = "Unknown") ∧
    (∀ h3, findDesc "h3" none cd = some h3 → r.service_name = getTextStrip h3) := by
  have hf := (processItem_fields item r cd h hc).1
  constructor
  · intro hh3
    rw [hf]
    unfold serviceNameOf
    rw [hh3]
  · intro h3 hh3
    rw [hf]
    unfold serviceNameOf
    rw [hh3]

def c3wCd : Node :=
  .elem "div" ["calendar-item-content"] [.elem "div" [] [.text "Info"]]

def c3wItem : Node :=
  .elem "div" ["calendar-item"]
    [.elem "div" ["meta"] [.text "2026-06-01 | Torsdag"], c3wCd]

def c3wRec : ChurchService :=
  ⟨"2026-06-01", "Torsdag", "Unknown", none, none, none, none⟩

/-- Witness for the amended C3: an entry without any heading is emitted
with the sentinel service name. -/
theorem C3_witness : c3wRec.service_name = "Unknown" :=
  (C3_amended_service_name c3wItem c3wRec c3wCd rfl rfl).1 rfl

/-! ### C4 -/

def c4doc : Node :=
  .elem "html" [] [
    .elem "section" ["calendar"] [
      .elem "div" ["calendar-item"] [
        .elem "div" ["meta"] [.text "2026-03-01 | Onsdag"],
        .elem "div" ["calendar-item-content"] [
          .elem "h3" [] [.text "Vesper"],
          .elem "div" [] [
            .elem "strong" [] [.text "Plats:"],
            .text " ",
            .elem "strong" [] [.text "Tid:"]
          ]
        ]
      ]
    ]
  ]

/-- Counterexample to claim C4: when the `Plats:` label is followed only
by whitespace before the next tag, the regex's capture group backtracks
onto that whitespace, `.strip()` reduces it to `""`, and the emitted
record carries `location = some ""` — an optional field holding the empty
string. -/
theorem C4_counterexample :
    fetch_calendar c4doc =
      [{ date := "2026-03-01", day_of_week := "Onsdag", service_name := "Vesper",
         location := some "", time := none, occasion := none, notes := none }] ∧
    (fetch_calendar c4doc).map ChurchService.location = [some ""] :=
  ⟨rfl, rfl⟩

/-- Claim C4 (amended): in every emitted record the optional fields
`occasion` and `notes` are either unset or non-empty; `location` and
`time`, however, hold the whitespace-trimmed regex capture and can be the
empty string when that capture was entirely whitespace. -/
theorem C4_amended_optional_fields (item : Node) (r : ChurchService)
    (h : processItem item = some r) :
    (∀ t, r.occasion = some t → t ≠ "") ∧
    (∀ t, r.notes = some t → t ≠ "") := by
  obtain ⟨m, d, w, cd, hm, hd, hc⟩ := processItem_some_inv item r h
  have hf := processItem_fields item r cd h hc
  constructor
  · intro t ht
    have ho := hf.2.1
    rw [ht] at ho
    cases hdd : findDesc "div" none cd with
    | none => rw [hdd] at ho; exact absurd ho (by simp)
    | some dd =>
      rw [hdd] at ho
      obtain ⟨st, _, _, hne, _, _⟩ := occasionOf_some_inv dd t ho.symm
      exact hne
  · intro t ht
    have hn := hf.2.2
    rw [ht] at hn
    cases hdd : findDesc "div" none cd with
    | none => rw [hdd] at hn; exact absurd hn (by simp)
    | some dd =>
      simp only [hdd] at hn
      by_cases he : (notesListOf dd).isEmpty = true
      · rw [if_pos he] at hn; exact absurd hn (by simp)
      · rw [if_neg he] at hn
        have ht' := Option.some.inj hn
        rw [ht']
        refine joinNl_ne_empty _ (fun hl => he ?_) (fun s hs => notesListOf_mem_ne_empty dd s hs)
        rw [hl]
        rfl

def c4wDd : Node :=
  .elem "div" [] [.elem "strong" [] [.text "Högtid"], .elem "p" [] [.text "Obs."]]

def c4wItem : Node :=
  .elem "div" ["calendar-item"]
    [.elem "div" ["meta"] [.text "2026-07-02 | Torsdag"],
     .elem "div" ["calendar-item-content"] [.elem "h3" [] [.text "Liturgi"], c4wDd]]

def c4wRec : ChurchService :=
  ⟨"2026-07-02", "Torsdag", "Liturgi", none, none, some "Högtid", some "Obs."⟩

/-- Witness for the amended C4: a record whose `occasion` and `notes` are
set indeed carries non-empty values there. -/
theorem C4_witness : "Högtid" ≠ "" ∧ "Obs." ≠ "" :=
  ⟨(C4_amended_optional_fields c4wItem c4wRec rfl).1 "Högtid" rfl,
   (C4_amended_optional_fields c4wItem c4wRec rfl).2 "Obs." rfl⟩

/-! ### C5, C6, C7 -/

/-- Claim C5: an entry whose flattened meta text contains no substring
matching the `YYYY-MM-DD | word` pattern contributes no record and raises
nothing (the model is total), and on every input the number of emitted
records is at most the number of calendar-item blocks. -/
theorem C5_unmatched_date_dropped :
    (∀ item m, findDesc "div" (some "meta") item = some m →
       dateSearch (getTextStrip m).toList = none →
       processItem item = none) ∧
    (∀ doc : Node, (fetch_calendar doc).length ≤ (calendarItems doc).length) := by
  constructor
  · exact fun item m hm hd => processItem_none_of_no_date item m hm hd
  · intro doc
    rw [fetch_eq_filterMap]
    exact List.length_filterMap_le _ _

def c5m : Node := .elem "div" ["meta"] [.text "Fredag 20 februari"]

def c5item : Node :=
  .elem "div" ["calendar-item"]
    [c5m, .elem "div" ["calendar-item-content"] [.elem "h3" [] [.text "Vesper"]]]

def c5doc : Node := .elem "html" [] [.elem "section" ["calendar"] [c5item]]

/-- Witness for C5: an entry whose meta text has no date-pattern match is
dropped, and the record count is bounded by the item count. -/
theorem C5_witness :
    processItem c5item = none ∧
    (fetch_calendar c5doc).length ≤ (calendarItems c5doc).length :=
  ⟨C5_unmatched_date_dropped.1 c5item c5m rfl rfl,
   C5_unmatched_date_dropped.2 c5doc⟩

/-- Claim C6: when the document has no `section.calendar`, or the section
holds no `calendar-item` blocks, extraction returns the empty list (and,
being a total function, raises nothing). -/
theorem C6_empty_structure (doc : Node)
    (h : findDesc "section" (some "calendar") doc = none ∨ calendarItems doc = []) :
    fetch_calendar doc = [] := by
  rcases h with h | h
  · unfold fetch_calendar
    rw [h]
  · rw [fetch_eq_filterMap, h]
    rfl

def c6doc : Node := .elem "html" [] [.elem "div" ["calendar"] [.text "x"]]

/-- Witness for C6: a document whose only `calendar`-classed element is a
`div`, not a `section`, yields the empty record list. -/
theorem C6_witness : fetch_calendar c6doc = [] :=
  C6_empty_structure c6doc (Or.inl rfl)

/-- Claim C7: when every calendar-item block is well-formed, extraction
returns exactly as many records as there are blocks, and pairs them with
the blocks in document order (the output is the `filterMap` of the item
list, never re-sorted). -/
theorem C7_order_preserved (doc : Node)
    (h : ∀ item ∈ calendarItems doc, wellFormed item = true) :
    (fetch_calendar doc).length = (calendarItems doc).length ∧
    List.Forall₂ (fun it r => processItem it = some r)
      (calendarItems doc) (fetch_calendar doc) := by
  have hfa := filterMap_processItem_forall₂ (calendarItems doc)
    (fun x hx => processItem_isSome_of_wellFormed x (h x hx))
  rw [fetch_eq_filterMap]
  exact ⟨hfa.length_eq.symm, hfa⟩

def c7item1 : Node :=
  .elem "div" ["calendar-item"]
    [.elem "div" ["meta"] [.text "2026-02-20 | Fredag"],
     .elem "div" ["calendar-item-content"] [.elem "h3" [] [.text "Aftonsång"]]]

def c7item2 : Node :=
  .elem "div" ["calendar-item"]
    [.elem "div" ["meta"] [.text "2026-02-22 | Torsdag"],
     .elem "div" ["calendar-item-content"] [.elem "h3" [] [.text "Liturgi"]]]

def c7doc : Node :=
  .elem "html" [] [.elem "section" ["calendar"] [c7item1, c7item2]]

/-- Witness for C7: a document with two well-formed entries yields two
records, paired with the entries in document order. -/
theorem C7_witness :
    (fetch_calendar c7doc).length = (calendarItems c7doc).length ∧
    List.Forall₂ (fun it r => processItem it = some r)
      (calendarItems c7doc) (fetch_calendar c7doc) :=
  C7_order_preserved c7doc (by decide)

/-! ### C8, C9, C10 -/

theorem serviceOfJson_serviceToJson (r : ChurchService) :
    serviceOfJson (serviceToJson r) = some r := by
  obtain ⟨d, w, s, l, t, o, n⟩ := r
  cases l <;> cases t <;> cases o <;> cases n <;> rfl

/-- Claim C8: serializing any record sequence to the JSON array form
(keys `date`, `day_of_week`, `service_name`, `location`, `time`,
`occasion`, `notes`; unset optional fields as `null`) and re-reading it
reproduces the records field for field, in order. -/
theorem C8_serialization_roundtrip (rs : List ChurchService) :
    servicesOfJson (servicesToJson rs) = some rs := by
  induction rs with
  | nil => rfl
  | cons r rest ih =>
    show servicesOfJsonList (List.map serviceToJson (r :: rest)) = some (r :: rest)
    rw [List.map_cons]
    simp only [servicesOfJsonList, serviceOfJson_serviceToJson]
    have ih' : servicesOfJsonList (List.map serviceToJson rest) = some rest := ih
    rw [ih']
    rfl

/-- Claim C9: the extraction logic duplicated in `src/fetch_calendar.py`
and `src/scrape_calendar.py` produces field-for-field equal record lists
(equal length and order) on every document — the two transcriptions are
definitionally the same function. -/
theorem C9_duplicates_agree (doc : Node) :
    fetch_calendar doc = ScrapeCalendar.fetch_calendar doc := rfl

/-- Claim C10: an entry with no `div.meta` sub-block, or with a matching
date but no `div.calendar-item-content` sub-block, yields no record at
all — not a sentinel record — and the surrounding entries are still
processed: dropping such an item from the list leaves the extracted
records unchanged. -/
theorem C10_malformed_entries_skipped :
    (∀ item, findDesc "div" (some "meta") item = none →
       processItem item = none) ∧
    (∀ item m d w, findDesc "div" (some "meta") item = some m →
       dateSearch (getTextStrip m).toList = some (d, w) →
       findDesc "div" (some "calendar-item-content") item = none →
       processItem item = none) ∧
    (∀ (pre post : List Node) item, processItem item = none →
       (pre ++ item :: post).filterMap processItem =
         (pre ++ post).filterMap processItem) := by
  refine ⟨processItem_none_of_no_meta,
          fun item m d w hm hd hc => processItem_none_of_no_content item hc,
          ?_⟩
  intro pre post item h
  simp [List.filterMap_append, List.filterMap_cons, h]

def c10aItem : Node :=
  .elem "div" ["calendar-item"] [.elem "div" [] [.text "inget datum"]]

def c10bM : Node := .elem "div" ["meta"] [.text "2026-05-01 | Torsdag"]

def c10bItem : Node := .elem "div" ["calendar-item"] [c10bM]

/-- Witness for C10: an entry without a meta block and an entry with a
valid date but no content block are both skipped, and skipping leaves the
neighbouring records untouched. -/
theorem C10_witness :
    processItem c10aItem = none ∧ processItem c10bItem = none ∧
    ([c7item1] ++ c10aItem :: [c7item2]).filterMap processItem =
      ([c7item1] ++ [c7item2]).filterMap processItem :=
  ⟨C10_malformed_entries_skipped.1 c10aItem rfl,
   C10_malformed_entries_skipped.2.1 c10bItem c10bM "2026-05-01" "Torsdag" rfl rfl rfl,
   C10_malformed_entries_skipped.2.2 [c7item1] [c7item2] c10aItem
     (C10_malformed_entries_skipped.1 c10aItem rfl)⟩
